import Mathlib

/-!
Shallow embedding of the snarkVM ledger core and its coinbase-solution
subsystem, translated from
  src/vm/compiler/src/ledger/mod.rs
  src/vm/compiler/src/coinbase_puzzle/helpers/coinbase_solution/mod.rs

Opaque cryptographic and storage primitives (KZG pairing check, BHP hashes,
Merkle roots, the VM contract, polynomial evaluation, signatures) are the
spec's declared external collaborators; they are collected in an `Env`
record of oracle functions. Identifiers, hashes, group elements and
addresses are modelled as Nat; field elements as Int; u64/u128 checked
arithmetic is modelled on Nat with explicit 2^64 / 2^128 bounds.
-/

/-- The anchor time per block in seconds (ledger/mod.rs). -/
def ANCHOR_TIME : Nat := 20

/-- The maximum number of prover solutions per block (ledger/mod.rs): 2^20. -/
def MAX_PROVER_SOLUTIONS : Nat := 1 <<< 20

/-- The number of blocks per epoch (ledger/mod.rs): 256. -/
def NUM_BLOCKS_PER_EPOCH : Nat := 1 <<< 8

/-- One past the largest u64 value: checked u64 arithmetic fails at this bound. -/
def U64_LIMIT : Nat := 2 ^ 64

/-- One past the largest u128 value: checked u128 arithmetic fails at this bound. -/
def U128_LIMIT : Nat := 2 ^ 128

/-- Modelled from the spec: the anchor block height helper
(ledger/helpers is not part of the excerpt). The glossary defines it as
(seconds per year times the number of years) divided by ANCHOR_TIME. -/
def anchor_block_height (anchor_time : Nat) (num_years : Nat) : Nat :=
  365 * 24 * 60 * 60 * num_years / anchor_time

/-- An origin of a transaction input: a commitment or a (reserved) state root. -/
inductive Origin where
  | commitment (c : Nat)
  | stateRoot (r : Nat)
deriving DecidableEq

/-- The slice of a transition that check_next_block reads: program ID,
function name and fee. -/
structure Transition where
  program_id : String
  function_name : String
  fee : Int
deriving DecidableEq

/-- A transaction, reduced to the identifiers and iterators the ledger
reads: its ID, the input/output artifact iterators, its transitions, and
the deployed program ID when the transaction is a deployment. -/
structure Transaction where
  id : Nat
  input_ids : List Nat
  output_ids : List Nat
  serial_numbers : List Nat
  tags : List Nat
  commitments : List Nat
  nonces : List Nat
  origins : List Origin
  tpks : List Nat
  tcms : List Nat
  transitions : List Transition
  deploy_program_id : Option Nat
deriving DecidableEq

/-- Block header metadata: network ID, round, height, both targets and the
timestamp. -/
structure Metadata where
  network_id : Nat
  round : Nat
  height : Nat
  coinbase_target : Nat
  proof_target : Nat
  timestamp : Int
deriving DecidableEq

/-- A block header: state root, transactions root, coinbase accumulator
point and metadata. -/
structure Header where
  state_root : Nat
  transactions_root : Nat
  coinbase_accumulator_point : Int
  metadata : Metadata
deriving DecidableEq

/-- A KZG opening proof: the witness element and the optional hiding
randomness. The proof is hiding exactly when the randomness is present. -/
structure KZGProof where
  w : Nat
  random_v : Option Int
deriving DecidableEq

/-- Whether a KZG proof is hiding: its random_v component is present. -/
def KZGProof.is_hiding (p : KZGProof) : Bool :=
  p.random_v.isSome

/-- A partial prover solution: commitment, address and nonce. -/
structure PartialSolution where
  commitment : Nat
  address : Nat
  nonce : Nat
deriving DecidableEq

/-- A coinbase solution: the ordered partial solutions and the aggregated
KZG proof (coinbase_solution/mod.rs). -/
structure CoinbaseSolution where
  partial_solutions : List PartialSolution
  proof : KZGProof
deriving DecidableEq

/-- A prover solution as held in the coinbase memory pool: a partial
solution together with its individual KZG proof. -/
structure ProverSolution where
  partial_solution : PartialSolution
  proof : KZGProof
deriving DecidableEq

/-- An epoch challenge: the epoch number and its (abstract) epoch
polynomial. -/
structure EpochChallenge where
  epoch_number : Nat
  epoch_polynomial : Nat
deriving DecidableEq

/-- A block: previous hash, header, transactions, optional coinbase proof,
signature, and the cached block hash. -/
structure Block where
  previous_hash : Nat
  header : Header
  transactions : List Transaction
  coinbase_proof : Option CoinbaseSolution
  signature : Nat
  block_hash : Nat
deriving DecidableEq

/-- The block height, read from the header metadata. -/
def Block.height (b : Block) : Nat := b.header.metadata.height

/-- The block round, read from the header metadata. -/
def Block.round (b : Block) : Nat := b.header.metadata.round

/-- The block timestamp, read from the header metadata. -/
def Block.timestamp (b : Block) : Int := b.header.metadata.timestamp

/-- Modelled from the spec: the epoch number of a block, its height divided
by NUM_BLOCKS_PER_EPOCH (an epoch is a window of 256 consecutive blocks). -/
def Block.epoch_number (b : Block) : Nat := b.height / NUM_BLOCKS_PER_EPOCH

/-- The transaction IDs of a block, in transaction order. -/
def Block.transaction_ids (b : Block) : List Nat := b.transactions.map (·.id)

/-- The origins of all transactions of a block, in order. -/
def Block.origins (b : Block) : List Origin := b.transactions.flatMap (·.origins)

/-- The serial numbers of all transactions of a block, in order. -/
def Block.serial_numbers (b : Block) : List Nat := b.transactions.flatMap (·.serial_numbers)

/-- The commitments of all transactions of a block, in order. -/
def Block.commitments (b : Block) : List Nat := b.transactions.flatMap (·.commitments)

/-- The nonces of all transactions of a block, in order. -/
def Block.nonces (b : Block) : List Nat := b.transactions.flatMap (·.nonces)

/-- The transition public keys of all transactions of a block, in order. -/
def Block.transition_public_keys (b : Block) : List Nat := b.transactions.flatMap (·.tpks)

/-- The transitions of all transactions of a block, in order. -/
def Block.transitions (b : Block) : List Transition := b.transactions.flatMap (·.transitions)

/-- Modelled from the spec: the storage abstraction (§6): the committed
artifact indexes that the ledger's contains-queries consult, each
maintained by block insertion, plus the height-indexed block map. -/
structure Stores where
  blocks_by_height : List (Nat × Block)
  block_hashes : List Nat
  block_heights : List Nat
  transaction_ids : List Nat
  input_ids : List Nat
  serial_numbers : List Nat
  tags : List Nat
  commitments : List Nat
  nonces : List Nat
  output_ids : List Nat
  tpks : List Nat
  tcms : List Nat
  program_ids : List Nat
deriving DecidableEq

/-- The ledger state (ledger/mod.rs struct Ledger): tip, block tree
(as its leaf list), stores, validators, both memory pools and the VM
state. The coinbase puzzle itself lives in the oracle environment. -/
structure Ledger where
  current_hash : Nat
  current_height : Nat
  current_round : Nat
  block_tree : List Nat
  stores : Stores
  validators : List Nat
  memory_pool : List (Nat × Transaction)
  coinbase_memory_pool : List ProverSolution
  vm : Nat
deriving DecidableEq

/-- The oracle environment: the spec's external collaborators (KZG
primitives, BHP hashes, Merkle roots, the VM contract, signature-to-address,
retargeting helpers) and the constants whose values the excerpt does not
fix. -/
structure Env where
  MAX_NUM_PROOFS : Nat
  MAX_TRANSACTIONS : Nat
  to_target : Nat → Option Nat
  to_prover_polynomial : PartialSolution → EpochChallenge → Option Nat
  evaluate : Nat → Int → Int
  hash_commitments : List Nat → Option (List Int)
  msm : List Nat → List Int → Nat
  kzg_check : Nat → Nat → Int → Int → KZGProof → Option Bool
  coinbase_verifying_key : Nat
  epoch_challenge_of : Nat → Nat → Option EpochChallenge
  prover_solution_verify : Nat → EpochChallenge → Nat → ProverSolution → Option Bool
  accumulate : EpochChallenge → List ProverSolution → Option CoinbaseSolution
  vm_verify : Nat → Transaction → Bool
  vm_finalize : Nat → Transaction → Option Nat
  hash_bhp1024 : Nat → Nat → Option Nat
  header_to_root : Header → Option Nat
  header_is_valid : Header → Bool
  transactions_to_root : List Transaction → Option Nat
  is_genesis : Nat → Header → Bool
  sig_to_address : Nat → Nat
  sign : Nat → Nat → Nat
  tree_root : List Nat → Nat
  coinbase_reward : Int → Int → Nat → Option Nat
  coinbase_target_fn : Nat → Int → Int → Option Nat
  proof_target_fn : Nat → Nat
  network_id : Nat

/-- Every failure the embedded operations can report, one constructor per
bail site of the source. -/
inductive LedgerError where
  | wrongPreviousHash
  | blockHashExists
  | wrongHeight
  | blockHeightExists
  | wrongRound
  | missingLatestBlock
  | timestampTooEarly
  | transactionIdExists
  | originCommitmentMissing
  | originStateRootUnsupported
  | serialNumberExists
  | commitmentExists
  | nonceExists
  | tpkExists
  | invalidGenesis
  | invalidHeader
  | headerRootFailed
  | blockHashFailed
  | wrongBlockHash
  | noValidatorsPanic
  | unauthorizedValidator
  | transactionsRootFailed
  | wrongTransactionsRoot
  | emptyTransactions
  | tooManyTransactions
  | invalidTransactionInBlock
  | coinbaseAfterYear10
  | wrongAccumulatorPoint
  | noEpochChallenge
  | noCoinbaseTarget
  | noProofTarget
  | invalidCoinbaseProof
  | genesisFunctionCalled
  | negativeFee
  | vmInvalidTransaction
  | inputIdExists
  | tagExists
  | outputIdExists
  | programIdExists
  | tcmExists
  | finalizeFailed
  | emptyPartialSolutions
  | tooManyPartialSolutions
  | hidingProof
  | toTargetFailed
  | cumulativeTargetOverflow
  | belowCoinbaseTarget
  | belowProofTarget
  | proverPolynomialFailed
  | hashCommitmentsFailed
  | invalidChallengePointCount
  | missingAccumulatorPoint
  | kzgCheckFailed
  | transactionInMemoryPool
  | solutionVerifyFailed
  | invalidProverSolution
  | solutionInMemoryPool
  | coinbaseRewardFailed
  | proverRewardFailed
  | coinbaseTargetFailed
  | blockNewFailed
deriving DecidableEq

/-- Whether a result is an error. -/
def isErr {α : Type} : Except LedgerError α → Bool
  | .error _ => true
  | .ok _ => false

/-- The checked u128 fold of to_target over partial solutions
(coinbase_solution/mod.rs, to_cumulative_target): each to_target may fail,
and the running checked_add fails at 2^128. -/
def cumulativeTargetGo (env : Env) (acc : Nat) : List PartialSolution → Except LedgerError Nat
  | [] => .ok acc
  | sol :: rest =>
    match env.to_target sol.commitment with
    | none => .error .toTargetFailed
    | some t =>
      if acc + t < U128_LIMIT then cumulativeTargetGo env (acc + t) rest
      else .error .cumulativeTargetOverflow

/-- The cumulative sum of the prover solution targets as a checked u128
(coinbase_solution/mod.rs lines 117..122). -/
def CoinbaseSolution.to_cumulative_target (env : Env) (s : CoinbaseSolution) : Except LedgerError Nat :=
  cumulativeTargetGo env 0 s.partial_solutions

/-- The per-solution pass of verify (coinbase_solution/mod.rs lines
71..78): each solution's target must meet the proof target, and its prover
polynomial is computed; the first failure stops the pass. -/
def proverPolynomials (env : Env) (ec : EpochChallenge) (proof_target : Nat) :
    List PartialSolution → Except LedgerError (List Nat)
  | [] => .ok []
  | sol :: rest =>
    match env.to_target sol.commitment with
    | none => .error .toTargetFailed
    | some t =>
      if proof_target ≤ t then
        match env.to_prover_polynomial sol ec with
        | none => .error .proverPolynomialFailed
        | some p =>
          match proverPolynomials env ec proof_target rest with
          | .error e => .error e
          | .ok ps => .ok (p :: ps)
      else .error .belowProofTarget

/-- CoinbaseSolution::verify (coinbase_solution/mod.rs lines 40..114):
non-emptiness, the MAX_NUM_PROOFS bound, non-hiding, the coinbase target
over the checked cumulative sum, the per-solution proof-target pass, then
the challenge points, accumulator evaluation, accumulator commitment and
the final KZG check. -/
def CoinbaseSolution.verify (env : Env) (s : CoinbaseSolution) (vk : Nat) (ec : EpochChallenge)
    (coinbase_target : Nat) (proof_target : Nat) : Except LedgerError Bool :=
  if s.partial_solutions.isEmpty then .error .emptyPartialSolutions
  else if env.MAX_NUM_PROOFS < s.partial_solutions.length then .error .tooManyPartialSolutions
  else if s.proof.is_hiding then .error .hidingProof
  else
    match CoinbaseSolution.to_cumulative_target env s with
    | .error e => .error e
    | .ok cumulative =>
      if cumulative < coinbase_target then .error .belowCoinbaseTarget
      else
        match proverPolynomials env ec proof_target s.partial_solutions with
        | .error e => .error e
        | .ok prover_polys =>
          match env.hash_commitments (s.partial_solutions.map (·.commitment)) with
          | none => .error .hashCommitmentsFailed
          | some challenge_points =>
            if challenge_points.length = s.partial_solutions.length + 1 then
              match challenge_points.getLast? with
              | none => .error .missingAccumulatorPoint
              | some accumulator_point =>
                let cps := challenge_points.dropLast
                let accumulator_evaluation :=
                  ((prover_polys.zip cps).foldl
                    (fun acc pc => acc + env.evaluate pc.1 accumulator_point * pc.2) 0) *
                  env.evaluate ec.epoch_polynomial accumulator_point
                let accumulator_commitment :=
                  env.msm (s.partial_solutions.map (·.commitment)) cps
                match env.kzg_check vk accumulator_commitment accumulator_point
                    accumulator_evaluation s.proof with
                | none => .error .kzgCheckFailed
                | some b => .ok b
            else .error .invalidChallengePointCount

/-- CoinbaseSolution::to_accumulator_point (coinbase_solution/mod.rs lines
125..135): hash the ordered commitments, require n+1 challenge points, and
return the last one. -/
def CoinbaseSolution.to_accumulator_point (env : Env) (s : CoinbaseSolution) : Except LedgerError Int :=
  match env.hash_commitments (s.partial_solutions.map (·.commitment)) with
  | none => .error .hashCommitmentsFailed
  | some challenge_points =>
    if challenge_points.length = s.partial_solutions.length + 1 then
      match challenge_points.getLast? with
      | some point => .ok point
      | none => .error .missingAccumulatorPoint
    else .error .invalidChallengePointCount

/-- Whether the ledger already contains the given block hash. -/
def containsBlockHash (L : Ledger) (h : Nat) : Bool := L.stores.block_hashes.contains h

/-- Whether the ledger already contains the given block height. -/
def containsBlockHeight (L : Ledger) (h : Nat) : Bool := L.stores.block_heights.contains h

/-- Whether the ledger already contains the given transaction ID. -/
def containsTransactionId (L : Ledger) (i : Nat) : Bool := L.stores.transaction_ids.contains i

/-- Whether the ledger already contains the given input ID. -/
def containsInputId (L : Ledger) (i : Nat) : Bool := L.stores.input_ids.contains i

/-- Whether the ledger already contains the given serial number. -/
def containsSerialNumber (L : Ledger) (i : Nat) : Bool := L.stores.serial_numbers.contains i

/-- Whether the ledger already contains the given tag. -/
def containsTag (L : Ledger) (i : Nat) : Bool := L.stores.tags.contains i

/-- Whether the ledger already contains the given commitment. -/
def containsCommitment (L : Ledger) (c : Nat) : Bool := L.stores.commitments.contains c

/-- Whether the ledger already contains the given nonce. -/
def containsNonce (L : Ledger) (x : Nat) : Bool := L.stores.nonces.contains x

/-- Whether the ledger already contains the given output ID. -/
def containsOutputId (L : Ledger) (i : Nat) : Bool := L.stores.output_ids.contains i

/-- Whether the ledger already contains the given transition public key. -/
def containsTpk (L : Ledger) (k : Nat) : Bool := L.stores.tpks.contains k

/-- Whether the ledger already contains the given transition commitment. -/
def containsTcm (L : Ledger) (k : Nat) : Bool := L.stores.tcms.contains k

/-- Whether the ledger already contains the given program ID. -/
def containsProgramId (L : Ledger) (p : Nat) : Bool := L.stores.program_ids.contains p

/-- Modelled from the spec: get_block by height through the block store. -/
def getBlock (L : Ledger) (height : Nat) : Option Block :=
  (L.stores.blocks_by_height.find? (fun p => p.1 == height)).map (·.2)

/-- Modelled from the spec: get_hash by height through the block store. -/
def getHash (L : Ledger) (height : Nat) : Option Nat :=
  (getBlock L height).map (·.block_hash)

/-- Modelled from the spec: latest_block, the block at the current height. -/
def latestBlock (L : Ledger) : Option Block := getBlock L L.current_height

/-- Modelled from the spec: latest_coinbase_target, read from the latest
block header's metadata. -/
def latestCoinbaseTarget (L : Ledger) : Option Nat :=
  (latestBlock L).map (fun b => b.header.metadata.coinbase_target)

/-- Modelled from the spec: latest_proof_target, read from the latest
block header's metadata. -/
def latestProofTarget (L : Ledger) : Option Nat :=
  (latestBlock L).map (fun b => b.header.metadata.proof_target)

/-- Modelled from the spec: latest_epoch_number, the epoch window of the
current height. -/
def latest_epoch_number (L : Ledger) : Nat := L.current_height / NUM_BLOCKS_PER_EPOCH

/-- Modelled from the spec: latest_epoch_challenge, derived from the block
hash at the start of the current 256-block epoch (§3 EpochChallenge). -/
def latestEpochChallenge (env : Env) (L : Ledger) : Option EpochChallenge :=
  match getHash L (L.current_height - L.current_height % NUM_BLOCKS_PER_EPOCH) with
  | none => none
  | some epoch_block_hash =>
    env.epoch_challenge_of (L.current_height / NUM_BLOCKS_PER_EPOCH) epoch_block_hash

/-- The origin loop shared by check_transaction and check_next_block
(ledger/mod.rs lines 480..494 and 876..890): a commitment origin must
already exist in the ledger; a state-root origin is rejected outright. -/
def checkOrigins (L : Ledger) : List Origin → Except LedgerError Unit
  | [] => .ok ()
  | .commitment c :: rest =>
    if containsCommitment L c then checkOrigins L rest
    else .error .originCommitmentMissing
  | .stateRoot _ :: _ => .error .originStateRootUnsupported

/-- Ledger::check_transaction (ledger/mod.rs lines 839..942): VM validity,
then uniqueness of the transaction ID, input IDs, serial numbers, tags,
origins, output IDs, commitments, nonces, the deployed program ID, the
transition public keys and the transition commitments, in source order. -/
def check_transaction (env : Env) (L : Ledger) (t : Transaction) : Except LedgerError Unit :=
  if env.vm_verify L.vm t = false then .error .vmInvalidTransaction
  else if containsTransactionId L t.id then .error .transactionIdExists
  else if t.input_ids.any (containsInputId L) then .error .inputIdExists
  else if t.serial_numbers.any (containsSerialNumber L) then .error .serialNumberExists
  else if t.tags.any (containsTag L) then .error .tagExists
  else
    match checkOrigins L t.origins with
    | .error e => .error e
    | .ok () =>
      if t.output_ids.any (containsOutputId L) then .error .outputIdExists
      else if t.commitments.any (containsCommitment L) then .error .commitmentExists
      else if t.nonces.any (containsNonce L) then .error .nonceExists
      else if t.deploy_program_id.elim false (containsProgramId L) then .error .programIdExists
      else if t.tpks.any (containsTpk L) then .error .tpkExists
      else if t.tcms.any (containsTcm L) then .error .tcmExists
      else .ok ()

/-- The tip-linkage checks of check_next_block (ledger/mod.rs lines
438..462): previous hash, fresh block hash, height successor (only when
the current height is positive), fresh height, round successor (only when
the current round is positive). -/
def checkTipLinkage (L : Ledger) (b : Block) : Except LedgerError Unit :=
  if b.previous_hash ≠ L.current_hash then .error .wrongPreviousHash
  else if containsBlockHash L b.block_hash then .error .blockHashExists
  else if 0 < L.current_height ∧ L.current_height + 1 ≠ b.height then .error .wrongHeight
  else if containsBlockHeight L b.height then .error .blockHeightExists
  else if 0 < L.current_round ∧ L.current_round + 1 ≠ b.round then .error .wrongRound
  else .ok ()

/-- The timestamp check of check_next_block (ledger/mod.rs lines 464..468):
for a non-genesis block the timestamp must exceed the latest block's, and
fetching the latest block may itself fail. -/
def checkTimestamp (L : Ledger) (b : Block) : Except LedgerError Unit :=
  if 0 < b.height then
    match latestBlock L with
    | none => .error .missingLatestBlock
    | some lb => if b.timestamp ≤ lb.timestamp then .error .timestampTooEarly else .ok ()
  else .ok ()

/-- The committed-artifact freshness checks of check_next_block
(ledger/mod.rs lines 470..526): transaction IDs, origins, serial numbers,
commitments, nonces and transition public keys. -/
def checkUncommitted (L : Ledger) (b : Block) : Except LedgerError Unit :=
  if (Block.transaction_ids b).any (containsTransactionId L) then .error .transactionIdExists
  else
    match checkOrigins L (Block.origins b) with
    | .error e => .error e
    | .ok () =>
      if (Block.serial_numbers b).any (containsSerialNumber L) then .error .serialNumberExists
      else if (Block.commitments b).any (containsCommitment L) then .error .commitmentExists
      else if (Block.nonces b).any (containsNonce L) then .error .nonceExists
      else if (Block.transition_public_keys b).any (containsTpk L) then .error .tpkExists
      else .ok ()

/-- The header and block-hash checks of check_next_block (ledger/mod.rs
lines 528..559): the genesis predicate at height zero, header validity,
the header Merkle root and the recomputed BHP block hash. -/
def checkHeaderAndHash (env : Env) (b : Block) : Except LedgerError Unit :=
  if b.height = 0 ∧ env.is_genesis b.previous_hash b.header = false then .error .invalidGenesis
  else if env.header_is_valid b.header = false then .error .invalidHeader
  else
    match env.header_to_root b.header with
    | none => .error .headerRootFailed
    | some header_root =>
      match env.hash_bhp1024 b.previous_hash header_root with
      | none => .error .blockHashFailed
      | some candidate_hash =>
        if candidate_hash ≠ b.block_hash then .error .wrongBlockHash else .ok ()

/-- The signer check of check_next_block (ledger/mod.rs lines 561..574):
the signature's address must belong to a validator. The bail branch first
unwraps the first validator for a debug print, so with an empty validator
set the source aborts instead of returning its error; the cryptographic
signature check itself is commented out in the source. -/
def checkSigner (env : Env) (L : Ledger) (b : Block) : Except LedgerError Unit :=
  if L.validators.contains (env.sig_to_address b.signature) then .ok ()
  else
    match L.validators with
    | [] => .error .noValidatorsPanic
    | _ :: _ => .error .unauthorizedValidator

/-- The transactions checks of check_next_block (ledger/mod.rs lines
576..611): the recomputed transactions root, non-emptiness, the
MAX_TRANSACTIONS bound, and check_transaction over every transaction. -/
def checkTransactionsSection (env : Env) (L : Ledger) (b : Block) : Except LedgerError Unit :=
  match env.transactions_to_root b.transactions with
  | none => .error .transactionsRootFailed
  | some root =>
    if root ≠ b.header.transactions_root then .error .wrongTransactionsRoot
    else if b.transactions.isEmpty then .error .emptyTransactions
    else if env.MAX_TRANSACTIONS < b.transactions.length then .error .tooManyTransactions
    else if b.transactions.all (fun t => isErr (check_transaction env L t) = false) then .ok ()
    else .error .invalidTransactionInBlock

/-- The coinbase checks of check_next_block (ledger/mod.rs lines 613..639):
with a proof, the year-10 anchor bound, the accumulator point match and the
coinbase puzzle verification against latest epoch challenge and targets
(CoinbasePuzzle::verify delegates to CoinbaseSolution::verify with the
puzzle's verifying key, modelled from the spec's §6 interface); without a
proof, the accumulator point must be zero. -/
def checkCoinbase (env : Env) (L : Ledger) (b : Block) : Except LedgerError Unit :=
  match b.coinbase_proof with
  | some coinbase_proof =>
    if anchor_block_height ANCHOR_TIME 10 < b.height then .error .coinbaseAfterYear10
    else
      match CoinbaseSolution.to_accumulator_point env coinbase_proof with
      | .error e => .error e
      | .ok point =>
        if b.header.coinbase_accumulator_point ≠ point then .error .wrongAccumulatorPoint
        else
          match latestEpochChallenge env L with
          | none => .error .noEpochChallenge
          | some epoch_challenge =>
            match latestCoinbaseTarget L with
            | none => .error .noCoinbaseTarget
            | some coinbase_target =>
              match latestProofTarget L with
              | none => .error .noProofTarget
              | some proof_target =>
                match CoinbaseSolution.verify env coinbase_proof env.coinbase_verifying_key
                    epoch_challenge coinbase_target proof_target with
                | .error e => .error e
                | .ok false => .error .invalidCoinbaseProof
                | .ok true => .ok ()
  | none =>
    if b.header.coinbase_accumulator_point ≠ 0 then .error .wrongAccumulatorPoint
    else .ok ()

/-- The per-transition fee loop of check_next_block (ledger/mod.rs lines
641..660): past genesis, the credits.aleo genesis function may not be
called and no transition fee may be negative. -/
def checkFeesGo (height : Nat) : List Transition → Except LedgerError Unit
  | [] => .ok ()
  | t :: rest =>
    if 0 < height ∧ t.program_id = "credits.aleo" ∧ t.function_name = "genesis" then
      .error .genesisFunctionCalled
    else if 0 < height ∧ t.fee < 0 then .error .negativeFee
    else checkFeesGo height rest

/-- The fee checks of check_next_block over all transitions of the block. -/
def checkFees (b : Block) : Except LedgerError Unit :=
  checkFeesGo b.height (Block.transitions b)

/-- Ledger::check_next_block (ledger/mod.rs lines 437..663): the stages in
source order. -/
def check_next_block (env : Env) (L : Ledger) (b : Block) : Except LedgerError Unit :=
  match checkTipLinkage L b with
  | .error e => .error e
  | .ok () =>
    match checkTimestamp L b with
    | .error e => .error e
    | .ok () =>
      match checkUncommitted L b with
      | .error e => .error e
      | .ok () =>
        match checkHeaderAndHash env b with
        | .error e => .error e
        | .ok () =>
          match checkSigner env L b with
          | .error e => .error e
          | .ok () =>
            match checkTransactionsSection env L b with
            | .error e => .error e
            | .ok () =>
              match checkCoinbase env L b with
              | .error e => .error e
              | .ok () => checkFees b

/-- Modelled from the spec: BlockStore::insert (§6, §9) inserts the block
and populates every committed-artifact side index from the block's
iterators. -/
def insertBlock (s : Stores) (b : Block) : Stores :=
  { blocks_by_height := s.blocks_by_height ++ [(b.height, b)]
    block_hashes := s.block_hashes ++ [b.block_hash]
    block_heights := s.block_heights ++ [b.height]
    transaction_ids := s.transaction_ids ++ Block.transaction_ids b
    input_ids := s.input_ids ++ b.transactions.flatMap (·.input_ids)
    serial_numbers := s.serial_numbers ++ Block.serial_numbers b
    tags := s.tags ++ b.transactions.flatMap (·.tags)
    commitments := s.commitments ++ Block.commitments b
    nonces := s.nonces ++ Block.nonces b
    output_ids := s.output_ids ++ b.transactions.flatMap (·.output_ids)
    tpks := s.tpks ++ Block.transition_public_keys b
    tcms := s.tcms ++ b.transactions.flatMap (·.tcms)
    program_ids := s.program_ids ++ b.transactions.filterMap (·.deploy_program_id) }

/-- The sequential VM finalize pass of add_next_block (ledger/mod.rs lines
683..686): finalize every transaction of the block in order; the first
failure aborts. -/
def finalizeAll (env : Env) (vm : Nat) : List Transaction → Option Nat
  | [] => some vm
  | t :: rest =>
    match env.vm_finalize vm t with
    | none => none
    | some vm' => finalizeAll env vm' rest

/-- Ledger::add_next_block (ledger/mod.rs lines 665..717): check the block,
then apply all mutations to a clone of the ledger (tip, block tree, block
store, VM finalize, memory-pool purge, epoch-scoped solution-pool clear)
and return the clone; any failure returns an error and no ledger. -/
def add_next_block (env : Env) (L : Ledger) (b : Block) : Except LedgerError Ledger :=
  match check_next_block env L b with
  | .error e => .error e
  | .ok () =>
    let ledger1 : Ledger :=
      { L with
        current_hash := b.block_hash
        current_height := b.height
        current_round := b.round
        block_tree := L.block_tree ++ [b.block_hash]
        stores := insertBlock L.stores b }
    match finalizeAll env ledger1.vm b.transactions with
    | none => .error .finalizeFailed
    | some vm' =>
      let ledger2 : Ledger := { ledger1 with vm := vm' }
      let ledger3 : Ledger :=
        { ledger2 with
          memory_pool :=
            ledger2.memory_pool.filter (fun p => isErr (check_transaction env ledger2 p.2) = false) }
      if latest_epoch_number L < Block.epoch_number b then
        .ok { ledger3 with coinbase_memory_pool := [] }
      else .ok ledger3

/-- The Rust view of add_next_block on &mut self: on success self becomes
the mutated clone, on failure self keeps its old value. -/
def addNextBlockMut (env : Env) (L : Ledger) (b : Block) : Ledger × Option LedgerError :=
  match add_next_block env L b with
  | .ok L' => (L', none)
  | .error e => (L, some e)

/-- The fold of add_next_block over a list of candidate blocks. -/
def appendChain (env : Env) (L : Ledger) : List Block → Except LedgerError Ledger
  | [] => .ok L
  | b :: rest =>
    match add_next_block env L b with
    | .error e => .error e
    | .ok L' => appendChain env L' rest

/-- Ledger::add_to_memory_pool (ledger/mod.rs lines 285..297): reject a
duplicate transaction ID, check the transaction, then insert it at the end
of the insertion-ordered pool. -/
def add_to_memory_pool (env : Env) (L : Ledger) (transaction : Transaction) : Except LedgerError Ledger :=
  if L.memory_pool.any (fun p => p.1 == transaction.id) then .error .transactionInMemoryPool
  else
    match check_transaction env L transaction with
    | .error e => .error e
    | .ok () => .ok { L with memory_pool := L.memory_pool ++ [(transaction.id, transaction)] }

/-- Ledger::add_to_coinbase_memory_pool (ledger/mod.rs lines 300..322): the
year-10 anchor bound on the latest height, verification of the prover
solution against the coinbase verifying key, latest epoch challenge and
latest proof target, then insertion into the order-preserving set, which
rejects a duplicate. -/
def add_to_coinbase_memory_pool (env : Env) (L : Ledger) (prover_solution : ProverSolution) :
    Except LedgerError Ledger :=
  if anchor_block_height ANCHOR_TIME 10 < L.current_height then .error .coinbaseAfterYear10
  else
    match latestEpochChallenge env L with
    | none => .error .noEpochChallenge
    | some epoch_challenge =>
      match latestProofTarget L with
      | none => .error .noProofTarget
      | some proof_target =>
        match env.prover_solution_verify env.coinbase_verifying_key epoch_challenge
            proof_target prover_solution with
        | none => .error .solutionVerifyFailed
        | some false => .error .invalidProverSolution
        | some true =>
          if L.coinbase_memory_pool.contains prover_solution then .error .solutionInMemoryPool
          else .ok { L with coinbase_memory_pool := L.coinbase_memory_pool ++ [prover_solution] }

/-- The Rust view of add_to_memory_pool on &mut self. -/
def addToMemoryPoolMut (env : Env) (L : Ledger) (t : Transaction) : Ledger × Option LedgerError :=
  match add_to_memory_pool env L t with
  | .ok L' => (L', none)
  | .error e => (L, some e)

/-- The Rust view of add_to_coinbase_memory_pool on &mut self. -/
def addToCoinbaseMemoryPoolMut (env : Env) (L : Ledger) (s : ProverSolution) : Ledger × Option LedgerError :=
  match add_to_coinbase_memory_pool env L s with
  | .ok L' => (L', none)
  | .error e => (L, some e)

/-- The greedy first-fit transaction pass of propose_next_block
(ledger/mod.rs lines 327..346): walk the pool in insertion order, skip a
transaction whose input ID is already claimed, otherwise accept it and
claim its input IDs. -/
def selectTransactionsGo (input_ids : List Nat) : List Transaction → List Transaction
  | [] => []
  | t :: rest =>
    if t.input_ids.any (fun i => input_ids.contains i) then selectTransactionsGo input_ids rest
    else t :: selectTransactionsGo (input_ids ++ t.input_ids) rest

/-- The transactions chosen for a proposed block: the greedy first-fit
pass started with no claimed input IDs. -/
def selectTransactions (pool : List Transaction) : List Transaction :=
  selectTransactionsGo [] pool

/-- The coinbase construction of propose_next_block (ledger/mod.rs lines
356..369): no proof past the year-10 anchor height or when the cumulative
target misses the latest coinbase target (with a zero accumulator point);
otherwise accumulate the solutions and take the proof's accumulator point. -/
def proposeCoinbase (env : Env) (L : Ledger) (prover_solutions : List ProverSolution)
    (cumulative : Nat) : Except LedgerError (Option CoinbaseSolution × Int) :=
  if anchor_block_height ANCHOR_TIME 10 < L.current_height then .ok (none, 0)
  else
    match latestCoinbaseTarget L with
    | none => .error .noCoinbaseTarget
    | some latest_coinbase_target =>
      if cumulative < latest_coinbase_target then .ok (none, 0)
      else
        match latestEpochChallenge env L with
        | none => .error .noEpochChallenge
        | some epoch_challenge =>
          match env.accumulate epoch_challenge prover_solutions with
          | none => .error .blockNewFailed
          | some coinbase_proof =>
            match CoinbaseSolution.to_accumulator_point env coinbase_proof with
            | .error e => .error e
            | .ok point => .ok (some coinbase_proof, point)

/-- The per-prover reward pass of propose_next_block (ledger/mod.rs lines
390..413): checked u128 numerator and denominator, checked division and
the u64 conversion; the rewards themselves are computed and dropped. -/
def proverRewards (env : Env) (reward : Nat) (cumulative : Nat) :
    List ProverSolution → Option (List (Nat × Nat))
  | [] => some []
  | sol :: rest =>
    match env.to_target sol.partial_solution.commitment with
    | none => none
    | some t =>
      if reward * t < U128_LIMIT then
        if cumulative * 2 < U128_LIMIT then
          if cumulative * 2 = 0 then none
          else if reward * t / (cumulative * 2) < U64_LIMIT then
            (proverRewards env reward cumulative rest).map
              (fun l => (sol.partial_solution.address, reward * t / (cumulative * 2)) :: l)
          else none
        else none
      else none

/-- Modelled from the spec: Block::new (§4.3 step 6, §3, I4): build the
block from the given parts, with the block hash recomputed from the
previous hash and the header root, and the signature produced over the
block hash. -/
def Block.new (env : Env) (private_key : Nat) (prev : Nat) (header : Header)
    (transactions : List Transaction) (coinbase_proof : Option CoinbaseSolution) : Option Block :=
  match env.header_to_root header with
  | none => none
  | some header_root =>
    match env.hash_bhp1024 prev header_root with
    | none => none
    | some h =>
      some { previous_hash := prev, header := header, transactions := transactions,
             coinbase_proof := coinbase_proof, signature := env.sign private_key h,
             block_hash := h }

/-- Ledger::propose_next_block (ledger/mod.rs lines 325..434): greedy
transaction selection, solution selection capped at MAX_PROVER_SOLUTIONS,
the checked cumulative target, the coinbase gate, the informational reward
computation, retargeting, and block assembly. The wall-clock timestamp is
the now argument. -/
def propose_next_block (env : Env) (L : Ledger) (private_key : Nat) (now : Int) :
    Except LedgerError Block :=
  let transactions := selectTransactions (L.memory_pool.map (·.2))
  let prover_solutions := L.coinbase_memory_pool.take MAX_PROVER_SOLUTIONS
  match cumulativeTargetGo env 0 (prover_solutions.map (·.partial_solution)) with
  | .error e => .error e
  | .ok cumulative_prover_target =>
    match proposeCoinbase env L prover_solutions cumulative_prover_target with
    | .error e => .error e
    | .ok (coinbase_proof, coinbase_accumulator_point) =>
      match latestBlock L with
      | none => .error .missingLatestBlock
      | some lb =>
        let state_root := env.tree_root L.block_tree
        let next_height := L.current_height + 1
        let round := lb.round + 1
        match env.coinbase_reward lb.timestamp now next_height with
        | none => .error .coinbaseRewardFailed
        | some reward =>
          match proverRewards env reward cumulative_prover_target prover_solutions with
          | none => .error .proverRewardFailed
          | some _ =>
            match latestCoinbaseTarget L with
            | none => .error .noCoinbaseTarget
            | some latest_coinbase_target =>
              match env.coinbase_target_fn latest_coinbase_target lb.timestamp now with
              | none => .error .coinbaseTargetFailed
              | some coinbase_target =>
                let proof_target := env.proof_target_fn coinbase_target
                let metadata : Metadata :=
                  { network_id := env.network_id, round := round, height := next_height,
                    coinbase_target := coinbase_target, proof_target := proof_target,
                    timestamp := now }
                match env.transactions_to_root transactions with
                | none => .error .transactionsRootFailed
                | some transactions_root =>
                  let header : Header :=
                    { state_root := state_root, transactions_root := transactions_root,
                      coinbase_accumulator_point := coinbase_accumulator_point,
                      metadata := metadata }
                  match Block.new env private_key lb.block_hash header transactions coinbase_proof with
                  | none => .error .blockNewFailed
                  | some b => .ok b

/-- A concrete oracle environment for evaluation: all primitives total and
deterministic, with a VM whose finalize always fails. -/
def envW : Env :=
  { MAX_NUM_PROOFS := 2
    MAX_TRANSACTIONS := 10
    to_target := fun _ => some 1
    to_prover_polynomial := fun _ _ => some 0
    evaluate := fun _ _ => 0
    hash_commitments := fun l => some (List.replicate (l.length + 1) 0)
    msm := fun _ _ => 0
    kzg_check := fun _ _ _ _ _ => some true
    coinbase_verifying_key := 0
    epoch_challenge_of := fun _ _ => some { epoch_number := 0, epoch_polynomial := 0 }
    prover_solution_verify := fun _ _ _ _ => some true
    accumulate := fun _ _ => none
    vm_verify := fun _ _ => true
    vm_finalize := fun _ _ => none
    hash_bhp1024 := fun _ _ => some 5
    header_to_root := fun _ => some 0
    header_is_valid := fun _ => true
    transactions_to_root := fun _ => some 3
    is_genesis := fun _ _ => true
    sig_to_address := fun s => s % 100
    sign := fun _ _ => 0
    tree_root := fun _ => 0
    coinbase_reward := fun _ _ _ => some 0
    coinbase_target_fn := fun _ _ _ => some 0
    proof_target_fn := fun _ => 0
    network_id := 3 }

/-- The environment envW with a VM whose finalize succeeds unchanged. -/
def envW2 : Env := { envW with vm_finalize := fun vm _ => some vm }

/-- A concrete transaction with no artifacts. -/
def txW : Transaction :=
  { id := 1, input_ids := [], output_ids := [], serial_numbers := [], tags := [],
    commitments := [], nonces := [], origins := [], tpks := [], tcms := [],
    transitions := [], deploy_program_id := none }

/-- A concrete genesis-shaped header matching envW's oracles. -/
def headerW : Header :=
  { state_root := 0, transactions_root := 3, coinbase_accumulator_point := 0,
    metadata := { network_id := 3, round := 0, height := 0, coinbase_target := 0,
                  proof_target := 0, timestamp := 0 } }

/-- A concrete genesis-shaped block that passes check_next_block on LW
under envW. -/
def bW : Block :=
  { previous_hash := 0, header := headerW, transactions := [txW],
    coinbase_proof := none, signature := 7, block_hash := 5 }

/-- Stores with nothing committed. -/
def emptyStores : Stores :=
  { blocks_by_height := [], block_hashes := [], block_heights := [], transaction_ids := [],
    input_ids := [], serial_numbers := [], tags := [], commitments := [], nonces := [],
    output_ids := [], tpks := [], tcms := [], program_ids := [] }

/-- A concrete prover solution. -/
def solW : ProverSolution :=
  { partial_solution := { commitment := 0, address := 0, nonce := 0 },
    proof := { w := 0, random_v := none } }

/-- A fresh ledger about to ingest its genesis block. -/
def LW : Ledger :=
  { current_hash := 0, current_height := 0, current_round := 0, block_tree := [],
    stores := emptyStores, validators := [7], memory_pool := [],
    coinbase_memory_pool := [solW], vm := 0 }

/-- A concrete stored genesis block for the post-genesis ledger LW7. -/
def gW : Block :=
  { previous_hash := 0, header :=
      { state_root := 0, transactions_root := 3, coinbase_accumulator_point := 0,
        metadata := { network_id := 3, round := 0, height := 0, coinbase_target := 7,
                      proof_target := 0, timestamp := 0 } },
    transactions := [txW], coinbase_proof := none, signature := 7, block_hash := 5 }

/-- Stores holding exactly the genesis block gW. -/
def storesW7 : Stores :=
  { emptyStores with
    blocks_by_height := [(0, gW)]
    block_hashes := [5]
    block_heights := [0]
    transaction_ids := [1] }

/-- A ledger holding the genesis block gW at its tip. -/
def LW7 : Ledger :=
  { current_hash := 5, current_height := 0, current_round := 0, block_tree := [5],
    stores := storesW7, validators := [7], memory_pool := [],
    coinbase_memory_pool := [], vm := 0 }

/-- A concrete one-solution coinbase solution. -/
def csW : CoinbaseSolution :=
  { partial_solutions := [{ commitment := 1, address := 1, nonce := 1 }],
    proof := { w := 0, random_v := none } }

/-- A unit result that is no error is the ok value. -/
theorem exceptUnit_ok_of_isErr_false {x : Except LedgerError Unit} (h : isErr x = false) :
    x = .ok () := by
  cases x with
  | error e => simp [isErr] at h
  | ok u => cases u; rfl

/-- The tip-linkage stage succeeds exactly when its five conditions hold. -/
theorem checkTipLinkage_eq_ok_iff (L : Ledger) (b : Block) :
    checkTipLinkage L b = .ok () ↔
      (b.previous_hash = L.current_hash ∧ containsBlockHash L b.block_hash = false ∧
        (0 < L.current_height → b.height = L.current_height + 1) ∧
        containsBlockHeight L b.height = false ∧
        (0 < L.current_round → b.round = L.current_round + 1)) := by
  unfold checkTipLinkage
  repeat' split
  all_goals simp_all
  all_goals omega

/-- The timestamp stage succeeds exactly when genesis is exempt and
otherwise the latest block exists and is strictly older. -/
theorem checkTimestamp_eq_ok_iff (L : Ledger) (b : Block) :
    checkTimestamp L b = .ok () ↔
      (0 < b.height → ∃ lb, latestBlock L = some lb ∧ lb.timestamp < b.timestamp) := by
  unfold checkTimestamp
  repeat' split
  all_goals simp_all

/-- The signer stage succeeds exactly when the signature's address is a
validator. -/
theorem checkSigner_eq_ok_iff (env : Env) (L : Ledger) (b : Block) :
    checkSigner env L b = .ok () ↔
      L.validators.contains (env.sig_to_address b.signature) = true := by
  unfold checkSigner
  repeat' split
  all_goals simp_all

/-- check_next_block succeeds exactly when all eight stages succeed. -/
theorem check_next_block_eq_ok_iff (env : Env) (L : Ledger) (b : Block) :
    check_next_block env L b = .ok () ↔
      (checkTipLinkage L b = .ok () ∧ checkTimestamp L b = .ok () ∧
        checkUncommitted L b = .ok () ∧ checkHeaderAndHash env b = .ok () ∧
        checkSigner env L b = .ok () ∧ checkTransactionsSection env L b = .ok () ∧
        checkCoinbase env L b = .ok () ∧ checkFees b = .ok ()) := by
  unfold check_next_block
  repeat' split
  all_goals simp_all

/-- A successful per-solution pass certifies that every solution's target
is defined and meets the proof target. -/
theorem proverPolynomials_ok_targets (env : Env) (ec : EpochChallenge) (pt : Nat) :
    ∀ (l : List PartialSolution) (ps : List Nat), proverPolynomials env ec pt l = .ok ps →
      ∀ sol ∈ l, ∃ t, env.to_target sol.commitment = some t ∧ pt ≤ t := by
  intro l
  induction l with
  | nil => intro ps _ sol hmem; simp at hmem
  | cons a rest ih =>
    intro ps h sol hmem
    unfold proverPolynomials at h
    cases hta : env.to_target a.commitment with
    | none => simp [hta] at h
    | some ta =>
      simp only [hta] at h
      by_cases hge : pt ≤ ta
      · rw [if_pos hge] at h
        cases htp : env.to_prover_polynomial a ec with
        | none => simp [htp] at h
        | some p =>
          simp only [htp] at h
          cases hrec : proverPolynomials env ec pt rest with
          | error e => simp [hrec] at h
          | ok ps' =>
            rcases List.mem_cons.mp hmem with rfl | hmem'
            · exact ⟨ta, hta, hge⟩
            · exact ih ps' hrec sol hmem'
      · rw [if_neg hge] at h; simp at h

/-- A solution whose target is defined but below the proof target makes the
per-solution pass fail. -/
theorem proverPolynomials_error_of_low (env : Env) (ec : EpochChallenge) (pt : Nat) :
    ∀ (l : List PartialSolution) (sol : PartialSolution) (t : Nat), sol ∈ l →
      env.to_target sol.commitment = some t → t < pt →
      isErr (proverPolynomials env ec pt l) = true := by
  intro l
  induction l with
  | nil => intro sol t hmem _ _; simp at hmem
  | cons a rest ih =>
    intro sol t hmem ht hlt
    rcases List.mem_cons.mp hmem with rfl | hmem'
    · unfold proverPolynomials
      rw [ht]
      have hge : ¬ pt ≤ t := by omega
      simp [hge, isErr]
    · have hrec := ih sol t hmem' ht hlt
      unfold proverPolynomials
      cases hta : env.to_target a.commitment with
      | none => simp [isErr]
      | some ta =>
        by_cases hge : pt ≤ ta
        · cases htp : env.to_prover_polynomial a ec with
          | none => simp [hge, htp, isErr]
          | some p =>
            cases hpp : proverPolynomials env ec pt rest with
            | error e => simp [hge, htp, hpp, isErr]
            | ok ps => rw [hpp] at hrec; simp [isErr] at hrec
        · simp [hge, isErr]

/-- verify rejects whenever some partial solution has a defined target
strictly below the proof target. -/
theorem verify_isErr_of_low_target (env : Env) (s : CoinbaseSolution) (vk : Nat)
    (ec : EpochChallenge) (ct pt : Nat) (sol : PartialSolution) (t : Nat)
    (hmem : sol ∈ s.partial_solutions) (ht : env.to_target sol.commitment = some t)
    (hlt : t < pt) : isErr (CoinbaseSolution.verify env s vk ec ct pt) = true := by
  have hlow := proverPolynomials_error_of_low env ec pt s.partial_solutions sol t hmem ht hlt
  unfold CoinbaseSolution.verify
  repeat' split
  all_goals simp_all [isErr]

/-- A verify result of ok certifies the non-emptiness, size, non-hiding,
coinbase-target and per-solution proof-target preconditions. -/
theorem verify_ok_implies (env : Env) (s : CoinbaseSolution) (vk : Nat) (ec : EpochChallenge)
    (ct pt : Nat) (b : Bool) (h : CoinbaseSolution.verify env s vk ec ct pt = .ok b) :
    s.partial_solutions ≠ [] ∧ s.partial_solutions.length ≤ env.MAX_NUM_PROOFS ∧
    s.proof.is_hiding = false ∧
    (∃ cum, CoinbaseSolution.to_cumulative_target env s = .ok cum ∧ ct ≤ cum) ∧
    ∀ sol ∈ s.partial_solutions, ∃ t, env.to_target sol.commitment = some t ∧ pt ≤ t := by
  unfold CoinbaseSolution.verify at h
  repeat' split at h
  all_goals simp_all
  exact proverPolynomials_ok_targets env ec pt s.partial_solutions _ (by assumption)

/-- When hashing the commitments yields a number of challenge points other
than one more than the number of partial solutions, verify rejects. -/
theorem verify_isErr_of_bad_count (env : Env) (s : CoinbaseSolution) (vk : Nat)
    (ec : EpochChallenge) (ct pt : Nat) (pts : List Int)
    (hhash : env.hash_commitments (s.partial_solutions.map (·.commitment)) = some pts)
    (hne : pts.length ≠ s.partial_solutions.length + 1) :
    isErr (CoinbaseSolution.verify env s vk ec ct pt) = true := by
  unfold CoinbaseSolution.verify
  repeat' split
  all_goals simp_all [isErr]

/-- When hashing the commitments yields a number of challenge points other
than one more than the number of partial solutions, to_accumulator_point
rejects. -/
theorem to_accumulator_point_isErr_of_bad_count (env : Env) (s : CoinbaseSolution)
    (pts : List Int)
    (hhash : env.hash_commitments (s.partial_solutions.map (·.commitment)) = some pts)
    (hne : pts.length ≠ s.partial_solutions.length + 1) :
    isErr (CoinbaseSolution.to_accumulator_point env s) = true := by
  unfold CoinbaseSolution.to_accumulator_point
  rw [hhash]
  simp [hne, isErr]

/-- With the right number of challenge points, to_accumulator_point returns
exactly the last one. -/
theorem to_accumulator_point_eq_last (env : Env) (s : CoinbaseSolution) (pts : List Int)
    (hhash : env.hash_commitments (s.partial_solutions.map (·.commitment)) = some pts)
    (hcount : pts.length = s.partial_solutions.length + 1) :
    ∃ z, pts.getLast? = some z ∧ CoinbaseSolution.to_accumulator_point env s = .ok z := by
  have hne : pts ≠ [] := by
    intro hnil; rw [hnil] at hcount; simp at hcount
  obtain ⟨z, hz⟩ : ∃ z, pts.getLast? = some z := by
    cases hzz : pts.getLast? with
    | none => exact absurd (List.getLast?_eq_none_iff.mp hzz) hne
    | some z => exact ⟨z, rfl⟩
  refine ⟨z, hz, ?_⟩
  unfold CoinbaseSolution.to_accumulator_point
  rw [hhash]
  simp [hcount, hz]

/-- When every precondition holds, verify is exactly the KZG pairing check
at the accumulator point, with the accumulator evaluation given by the
challenge-weighted sum of the prover polynomial evaluations times the
epoch polynomial evaluation, and the accumulator commitment given by the
multi-scalar multiplication of the commitments with the first n challenge
points. -/
theorem verify_kzg_formula (env : Env) (s : CoinbaseSolution) (vk : Nat) (ec : EpochChallenge)
    (ct pt : Nat) (cum : Nat) (polys : List Nat) (pts : List Int) (z : Int)
    (hne : s.partial_solutions ≠ [])
    (hmax : s.partial_solutions.length ≤ env.MAX_NUM_PROOFS)
    (hhid : s.proof.is_hiding = false)
    (hcum : CoinbaseSolution.to_cumulative_target env s = .ok cum)
    (hct : ct ≤ cum)
    (hpp : proverPolynomials env ec pt s.partial_solutions = .ok polys)
    (hhash : env.hash_commitments (s.partial_solutions.map (·.commitment)) = some pts)
    (hcount : pts.length = s.partial_solutions.length + 1)
    (hz : pts.getLast? = some z) :
    CoinbaseSolution.verify env s vk ec ct pt =
      match env.kzg_check vk (env.msm (s.partial_solutions.map (·.commitment)) pts.dropLast) z
          (((polys.zip pts.dropLast).foldl (fun acc pc => acc + pc.2 * env.evaluate pc.1 z) 0) *
            env.evaluate ec.epoch_polynomial z) s.proof with
      | none => .error .kzgCheckFailed
      | some b => .ok b := by
  have h1 : s.partial_solutions.isEmpty = false := by
    cases h0 : s.partial_solutions with
    | nil => exact absurd h0 hne
    | cons a l => simp [h0]
  have h2 : ¬ env.MAX_NUM_PROOFS < s.partial_solutions.length := by omega
  have hct' : ¬ cum < ct := by omega
  have hfold : ∀ (l : List (Nat × Int)) (a : Int),
      l.foldl (fun acc pc => acc + env.evaluate pc.1 z * pc.2) a =
      l.foldl (fun acc pc => acc + pc.2 * env.evaluate pc.1 z) a := by
    intro l
    induction l with
    | nil => intro a; rfl
    | cons x xs ih => intro a; simp only [List.foldl]; rw [mul_comm, ih]
  unfold CoinbaseSolution.verify
  rw [h1]
  simp only [Bool.false_eq_true, if_false, h2, if_neg, hhid, hcum, hct', hpp, hhash, hcount,
    if_pos, hz, hfold]

/-- A concrete epoch challenge. -/
def ecW : EpochChallenge := { epoch_number := 0, epoch_polynomial := 0 }

/-- C2: CoinbaseSolution::verify returns an error whenever the partial
solution list is empty; its length exceeds MAX_NUM_PROOFS; the KZG proof
is hiding; the checked u128 cumulative target errors or falls strictly
below the coinbase target; or some partial solution's target falls
strictly below the proof target — checked in this order — and a
non-error result certifies that none of these conditions holds, so the
KZG pairing check is reached only then. -/
theorem coinbase_solution_verify_error_order (env : Env) (s : CoinbaseSolution) (vk : Nat)
    (ec : EpochChallenge) (ct pt : Nat) :
    (s.partial_solutions = [] →
      CoinbaseSolution.verify env s vk ec ct pt = .error .emptyPartialSolutions)
    ∧ (s.partial_solutions ≠ [] → env.MAX_NUM_PROOFS < s.partial_solutions.length →
      CoinbaseSolution.verify env s vk ec ct pt = .error .tooManyPartialSolutions)
    ∧ (s.partial_solutions ≠ [] → s.partial_solutions.length ≤ env.MAX_NUM_PROOFS →
      s.proof.is_hiding = true →
      CoinbaseSolution.verify env s vk ec ct pt = .error .hidingProof)
    ∧ (∀ e, s.partial_solutions ≠ [] → s.partial_solutions.length ≤ env.MAX_NUM_PROOFS →
      s.proof.is_hiding = false → CoinbaseSolution.to_cumulative_target env s = .error e →
      CoinbaseSolution.verify env s vk ec ct pt = .error e)
    ∧ (∀ cum, s.partial_solutions ≠ [] → s.partial_solutions.length ≤ env.MAX_NUM_PROOFS →
      s.proof.is_hiding = false → CoinbaseSolution.to_cumulative_target env s = .ok cum →
      cum < ct → CoinbaseSolution.verify env s vk ec ct pt = .error .belowCoinbaseTarget)
    ∧ (∀ sol t, sol ∈ s.partial_solutions → env.to_target sol.commitment = some t → t < pt →
      isErr (CoinbaseSolution.verify env s vk ec ct pt) = true)
    ∧ (∀ b, CoinbaseSolution.verify env s vk ec ct pt = .ok b →
      s.partial_solutions ≠ [] ∧ s.partial_solutions.length ≤ env.MAX_NUM_PROOFS ∧
      s.proof.is_hiding = false ∧
      (∃ cum, CoinbaseSolution.to_cumulative_target env s = .ok cum ∧ ct ≤ cum) ∧
      ∀ sol ∈ s.partial_solutions, ∃ t, env.to_target sol.commitment = some t ∧ pt ≤ t) := by
  refine ⟨?_, ?_, ?_, ?_, ?_, ?_, ?_⟩
  · intro h
    unfold CoinbaseSolution.verify
    simp [h]
  · intro hne hgt
    have h1 : s.partial_solutions.isEmpty = false := by
      cases h0 : s.partial_solutions with
      | nil => exact absurd h0 hne
      | cons a l => simp [h0]
    unfold CoinbaseSolution.verify
    rw [h1]
    simp [hgt]
  · intro hne hle hhid
    have h1 : s.partial_solutions.isEmpty = false := by
      cases h0 : s.partial_solutions with
      | nil => exact absurd h0 hne
      | cons a l => simp [h0]
    have h2 : ¬ env.MAX_NUM_PROOFS < s.partial_solutions.length := by omega
    unfold CoinbaseSolution.verify
    rw [h1]
    simp [h2, hhid]
  · intro e hne hle hhid hcum
    have h1 : s.partial_solutions.isEmpty = false := by
      cases h0 : s.partial_solutions with
      | nil => exact absurd h0 hne
      | cons a l => simp [h0]
    have h2 : ¬ env.MAX_NUM_PROOFS < s.partial_solutions.length := by omega
    unfold CoinbaseSolution.verify
    rw [h1]
    simp [h2, hhid, hcum]
  · intro cum hne hle hhid hcum hlt
    have h1 : s.partial_solutions.isEmpty = false := by
      cases h0 : s.partial_solutions with
      | nil => exact absurd h0 hne
      | cons a l => simp [h0]
    have h2 : ¬ env.MAX_NUM_PROOFS < s.partial_solutions.length := by omega
    unfold CoinbaseSolution.verify
    rw [h1]
    simp [h2, hhid, hcum, hlt]
  · intro sol t hmem ht hlt
    exact verify_isErr_of_low_target env s vk ec ct pt sol t hmem ht hlt
  · intro b h
    exact verify_ok_implies env s vk ec ct pt b h

/-- C2 witness: a concrete one-solution coinbase solution with cumulative
target 1 is rejected for a coinbase target of 5. -/
theorem coinbase_solution_verify_error_order_witness :
    CoinbaseSolution.verify envW csW 0 ecW 5 0 = .error .belowCoinbaseTarget :=
  (coinbase_solution_verify_error_order envW csW 0 ecW 5 0).2.2.2.2.1 1
    (by decide) (by decide) rfl rfl (by decide)

/-- C3: hashing the ordered commitments must yield one challenge point per
partial solution plus one: verify and to_accumulator_point both fail on
any other count; the last challenge point is the accumulator point, which
to_accumulator_point returns; and under the preconditions verify is the
KZG check at that point, with the accumulator evaluation equal to the sum
of challenge-weighted prover polynomial evaluations times the epoch
polynomial evaluation and the accumulator commitment equal to the MSM of
the commitments with the first n challenge points. -/
theorem coinbase_solution_accumulator_spec (env : Env) (s : CoinbaseSolution) (vk : Nat)
    (ec : EpochChallenge) (ct pt : Nat) :
    (∀ pts, env.hash_commitments (s.partial_solutions.map (·.commitment)) = some pts →
      pts.length ≠ s.partial_solutions.length + 1 →
      isErr (CoinbaseSolution.to_accumulator_point env s) = true ∧
      isErr (CoinbaseSolution.verify env s vk ec ct pt) = true)
    ∧ (∀ pts, env.hash_commitments (s.partial_solutions.map (·.commitment)) = some pts →
      pts.length = s.partial_solutions.length + 1 →
      ∃ z, pts.getLast? = some z ∧ CoinbaseSolution.to_accumulator_point env s = .ok z)
    ∧ (∀ pts z cum polys,
      s.partial_solutions ≠ [] → s.partial_solutions.length ≤ env.MAX_NUM_PROOFS →
      s.proof.is_hiding = false → CoinbaseSolution.to_cumulative_target env s = .ok cum →
      ct ≤ cum → proverPolynomials env ec pt s.partial_solutions = .ok polys →
      env.hash_commitments (s.partial_solutions.map (·.commitment)) = some pts →
      pts.length = s.partial_solutions.length + 1 → pts.getLast? = some z →
      CoinbaseSolution.verify env s vk ec ct pt =
        match env.kzg_check vk (env.msm (s.partial_solutions.map (·.commitment)) pts.dropLast) z
            (((polys.zip pts.dropLast).foldl (fun acc pc => acc + pc.2 * env.evaluate pc.1 z) 0) *
              env.evaluate ec.epoch_polynomial z) s.proof with
        | none => .error .kzgCheckFailed
        | some b => .ok b) := by
  refine ⟨?_, ?_, ?_⟩
  · intro pts hhash hne
    exact ⟨to_accumulator_point_isErr_of_bad_count env s pts hhash hne,
      verify_isErr_of_bad_count env s vk ec ct pt pts hhash hne⟩
  · intro pts hhash hcount
    exact to_accumulator_point_eq_last env s pts hhash hcount
  · intro pts z cum polys hne hmax hhid hcum hct hpp hhash hcount hz
    exact verify_kzg_formula env s vk ec ct pt cum polys pts z hne hmax hhid hcum hct hpp
      hhash hcount hz

/-- C3 witness: on the concrete one-solution coinbase solution the hash
oracle yields two challenge points and to_accumulator_point returns the
last of them. -/
theorem coinbase_solution_accumulator_spec_witness :
    ∃ z, ([0, 0] : List Int).getLast? = some z ∧
      CoinbaseSolution.to_accumulator_point envW csW = .ok z :=
  (coinbase_solution_accumulator_spec envW csW 0 ecW 0 0).2.1 [0, 0] rfl (by decide)

/-- C4: check_next_block rejects on a wrong previous hash, an existing
block hash, a non-successor height when the current height is positive,
an existing block height, a non-successor round when the current round is
positive, and a non-genesis timestamp that does not exceed the latest
block's; the height-successor and round-successor checks are skipped at
current height, respectively current round, zero; and success certifies
all the tip-linkage conditions. -/
theorem check_next_block_tip_linkage_spec (env : Env) (L : Ledger) (b : Block) :
    (b.previous_hash ≠ L.current_hash → isErr (check_next_block env L b) = true)
    ∧ (containsBlockHash L b.block_hash = true → isErr (check_next_block env L b) = true)
    ∧ (0 < L.current_height → b.height ≠ L.current_height + 1 →
        isErr (check_next_block env L b) = true)
    ∧ (containsBlockHeight L b.height = true → isErr (check_next_block env L b) = true)
    ∧ (0 < L.current_round → b.round ≠ L.current_round + 1 →
        isErr (check_next_block env L b) = true)
    ∧ (0 < b.height → (∀ lb, latestBlock L = some lb → b.timestamp ≤ lb.timestamp) →
        isErr (check_next_block env L b) = true)
    ∧ (L.current_height = 0 → checkTipLinkage L b ≠ .error .wrongHeight)
    ∧ (L.current_round = 0 → checkTipLinkage L b ≠ .error .wrongRound)
    ∧ (check_next_block env L b = .ok () →
        b.previous_hash = L.current_hash ∧ containsBlockHash L b.block_hash = false ∧
        (0 < L.current_height → b.height = L.current_height + 1) ∧
        containsBlockHeight L b.height = false ∧
        (0 < L.current_round → b.round = L.current_round + 1) ∧
        (0 < b.height → ∃ lb, latestBlock L = some lb ∧ lb.timestamp < b.timestamp)) := by
  have hok : check_next_block env L b = .ok () →
      b.previous_hash = L.current_hash ∧ containsBlockHash L b.block_hash = false ∧
      (0 < L.current_height → b.height = L.current_height + 1) ∧
      containsBlockHeight L b.height = false ∧
      (0 < L.current_round → b.round = L.current_round + 1) ∧
      (0 < b.height → ∃ lb, latestBlock L = some lb ∧ lb.timestamp < b.timestamp) := by
    intro h
    have hs := (check_next_block_eq_ok_iff env L b).mp h
    have ht := (checkTipLinkage_eq_ok_iff L b).mp hs.1
    have hts := (checkTimestamp_eq_ok_iff L b).mp hs.2.1
    exact ⟨ht.1, ht.2.1, ht.2.2.1, ht.2.2.2.1, ht.2.2.2.2, hts⟩
  have key : ∀ {p : Prop}, (check_next_block env L b = .ok () → p) → ¬ p →
      isErr (check_next_block env L b) = true := by
    intro p hp hnp
    cases hc : check_next_block env L b with
    | error e => rfl
    | ok u => cases u; exact absurd (hp hc) hnp
  refine ⟨?_, ?_, ?_, ?_, ?_, ?_, ?_, ?_, hok⟩
  · intro hne
    exact key (fun h => (hok h).1) hne
  · intro hc
    exact key (fun h => (hok h).2.1) (by simp [hc])
  · intro hpos hne
    exact key (fun h => (hok h).2.2.1 hpos) hne
  · intro hc
    exact key (fun h => (hok h).2.2.2.1) (by simp [hc])
  · intro hpos hne
    exact key (fun h => (hok h).2.2.2.2.1 hpos) hne
  · intro hpos hall
    refine key (fun h => (hok h).2.2.2.2.2 hpos) ?_
    rintro ⟨lb, hlb, hlt⟩
    have := hall lb hlb
    omega
  · intro h0
    unfold checkTipLinkage
    repeat' split
    all_goals simp_all
  · intro h0
    unfold checkTipLinkage
    repeat' split
    all_goals simp_all

/-- A block whose previous hash does not match the tip of LW. -/
def bBad : Block := { bW with previous_hash := 9 }

/-- C4 witness: the block bBad is rejected on LW for its wrong previous
hash. -/
theorem check_next_block_tip_linkage_spec_witness :
    isErr (check_next_block envW LW bBad) = true :=
  (check_next_block_tip_linkage_spec envW LW bBad).1 (by decide)

/-- Invariant I5: with a coinbase proof the header's accumulator point is
the proof's accumulator point; without one it is zero. -/
def coinbaseInvariant (env : Env) (b : Block) : Prop :=
  (∀ proof, b.coinbase_proof = some proof →
    ∃ z, CoinbaseSolution.to_accumulator_point env proof = .ok z ∧
      b.header.coinbase_accumulator_point = z) ∧
  (b.coinbase_proof = none → b.header.coinbase_accumulator_point = 0)

/-- A successful coinbase stage certifies the year-10 bound, the
accumulator point match and the puzzle verification with a proof, and a
zero accumulator point without one. -/
theorem checkCoinbase_ok_conditions (env : Env) (L : Ledger) (b : Block)
    (h : checkCoinbase env L b = .ok ()) :
    (∀ proof, b.coinbase_proof = some proof →
      b.height ≤ anchor_block_height ANCHOR_TIME 10 ∧
      (∃ z, CoinbaseSolution.to_accumulator_point env proof = .ok z ∧
        b.header.coinbase_accumulator_point = z) ∧
      (∃ ec ct pt, latestEpochChallenge env L = some ec ∧ latestCoinbaseTarget L = some ct ∧
        latestProofTarget L = some pt ∧
        CoinbaseSolution.verify env proof env.coinbase_verifying_key ec ct pt = .ok true)) ∧
    (b.coinbase_proof = none → b.header.coinbase_accumulator_point = 0) := by
  constructor
  · intro proof hcp
    unfold checkCoinbase at h
    simp only [hcp] at h
    by_cases h1 : anchor_block_height ANCHOR_TIME 10 < b.height
    · rw [if_pos h1] at h; exact absurd h (by simp)
    rw [if_neg h1] at h
    refine ⟨by omega, ?_⟩
    cases hap : CoinbaseSolution.to_accumulator_point env proof with
    | error e => simp only [hap] at h; exact absurd h (by simp)
    | ok z =>
      simp only [hap] at h
      by_cases h2 : b.header.coinbase_accumulator_point ≠ z
      · rw [if_pos h2] at h; exact absurd h (by simp)
      rw [if_neg h2] at h
      refine ⟨⟨z, rfl, not_not.mp h2⟩, ?_⟩
      cases hec : latestEpochChallenge env L with
      | none => simp only [hec] at h; exact absurd h (by simp)
      | some ec =>
        simp only [hec] at h
        cases hct : latestCoinbaseTarget L with
        | none => simp only [hct] at h; exact absurd h (by simp)
        | some ct =>
          simp only [hct] at h
          cases hpt : latestProofTarget L with
          | none => simp only [hpt] at h; exact absurd h (by simp)
          | some pt =>
            simp only [hpt] at h
            cases hv : CoinbaseSolution.verify env proof env.coinbase_verifying_key ec ct pt with
            | error e => simp only [hv] at h; exact absurd h (by simp)
            | ok bv =>
              cases bv with
              | false => simp only [hv] at h; exact absurd h (by simp)
              | true => exact ⟨ec, ct, pt, rfl, rfl, rfl, hv⟩
  · intro hcp
    unfold checkCoinbase at h
    simp only [hcp] at h
    by_cases h2 : b.header.coinbase_accumulator_point ≠ 0
    · rw [if_pos h2] at h; exact absurd h (by simp)
    · exact not_not.mp h2

/-- A successful append passes check_next_block. -/
theorem add_next_block_ok_check (env : Env) (L : Ledger) (b : Block) (L' : Ledger)
    (h : add_next_block env L b = .ok L') : check_next_block env L b = .ok () := by
  unfold add_next_block at h
  cases hc : check_next_block env L b with
  | error e => simp only [hc] at h; exact absurd h (by simp)
  | ok u => cases u; rfl

/-- A block accepted by check_next_block satisfies invariant I5. -/
theorem check_ok_coinbaseInvariant (env : Env) (L : Ledger) (b : Block)
    (h : check_next_block env L b = .ok ()) : coinbaseInvariant env b := by
  have hs := (check_next_block_eq_ok_iff env L b).mp h
  have hc := checkCoinbase_ok_conditions env L b hs.2.2.2.2.2.2.1
  exact ⟨fun proof hp => (hc.1 proof hp).2.1, hc.2⟩

/-- Every block of a successfully appended chain satisfies invariant I5. -/
theorem appendChain_coinbaseInvariant (env : Env) : ∀ (bs : List Block) (L L' : Ledger),
    appendChain env L bs = .ok L' → ∀ b ∈ bs, coinbaseInvariant env b := by
  intro bs
  induction bs with
  | nil => intro L L' _ b hmem; simp at hmem
  | cons a rest ih =>
    intro L L' h b hmem
    unfold appendChain at h
    cases ha : add_next_block env L a with
    | error e => simp only [ha] at h; exact absurd h (by simp)
    | ok L1 =>
      simp only [ha] at h
      rcases List.mem_cons.mp hmem with rfl | hmem'
      · exact check_ok_coinbaseInvariant env L b (add_next_block_ok_check env L b L1 ha)
      · exact ih L1 L' h b hmem'

/-- C5: check_next_block accepts a block with a coinbase proof only when
the height respects the year-10 anchor bound, the header's accumulator
point equals the proof's accumulator point and the puzzle verification
against the latest epoch challenge and targets returns true; it accepts a
block without a proof only when the header's accumulator point is zero;
hence every block of an add_next_block-accepted chain satisfies invariant
I5. -/
theorem check_next_block_coinbase_invariant (env : Env) (L : Ledger) (b : Block)
    (L0 : Ledger) (bs : List Block) (L' : Ledger) :
    (check_next_block env L b = .ok () →
      (∀ proof, b.coinbase_proof = some proof →
        b.height ≤ anchor_block_height ANCHOR_TIME 10 ∧
        (∃ z, CoinbaseSolution.to_accumulator_point env proof = .ok z ∧
          b.header.coinbase_accumulator_point = z) ∧
        (∃ ec ct pt, latestEpochChallenge env L = some ec ∧ latestCoinbaseTarget L = some ct ∧
          latestProofTarget L = some pt ∧
          CoinbaseSolution.verify env proof env.coinbase_verifying_key ec ct pt = .ok true)) ∧
      (b.coinbase_proof = none → b.header.coinbase_accumulator_point = 0))
    ∧ (appendChain env L0 bs = .ok L' → ∀ blk ∈ bs, coinbaseInvariant env blk) := by
  constructor
  · intro h
    exact checkCoinbase_ok_conditions env L b
      ((check_next_block_eq_ok_iff env L b).mp h).2.2.2.2.2.2.1
  · intro h
    exact appendChain_coinbaseInvariant env bs L0 L' h

/-- C5 witness: the accepted proof-free block bW carries a zero coinbase
accumulator point. -/
theorem check_next_block_coinbase_invariant_witness :
    bW.header.coinbase_accumulator_point = 0 :=
  ((check_next_block_coinbase_invariant envW LW bW LW [] LW).1 (by rfl)).2 rfl

/-- C1 counterexample: on the concrete ledger LW and block bW,
check_next_block succeeds while add_next_block fails, because the VM
refuses to finalize the transaction; the claimed equivalence between the
two is false. -/
theorem add_next_block_not_iff_check_counterexample :
    check_next_block envW LW bW = .ok () ∧ isErr (add_next_block envW LW bW) = true := by
  constructor <;> rfl

/-- C1 amended: add_next_block succeeds exactly when check_next_block
succeeds and the VM finalize of every transaction of the block succeeds
(the block-tree append and store insertion are modelled total); whenever
it returns an error, every field of the ledger is unchanged. -/
theorem add_next_block_amended_atomic (env : Env) (L : Ledger) (b : Block) :
    ((addNextBlockMut env L b).2 = none ↔
      (check_next_block env L b = .ok () ∧ (finalizeAll env L.vm b.transactions).isSome = true))
    ∧ (∀ e, (addNextBlockMut env L b).2 = some e → (addNextBlockMut env L b).1 = L) := by
  unfold addNextBlockMut add_next_block
  cases hc : check_next_block env L b with
  | error e => simp [hc]
  | ok u =>
    cases u
    cases hf : finalizeAll env L.vm b.transactions with
    | none => simp [hc, hf]
    | some vm' =>
      simp only [hc, hf]
      by_cases he : latest_epoch_number L < Block.epoch_number b
      · simp [he, hc, hf]
      · simp [he, hc, hf]

/-- C1 witness: with a VM that finalizes, appending bW to LW succeeds. -/
theorem add_next_block_amended_atomic_witness :
    (addNextBlockMut envW2 LW bW).2 = none :=
  ((add_next_block_amended_atomic envW2 LW bW).1).mpr ⟨rfl, rfl⟩

/-- The greedy pass keeps a subsequence of the pool: accepted transactions
appear in the order of acceptance. -/
theorem selectTransactionsGo_sublist : ∀ (pool : List Transaction) (ids : List Nat),
    List.Sublist (selectTransactionsGo ids pool) pool := by
  intro pool
  induction pool with
  | nil => intro ids; simp [selectTransactionsGo]
  | cons t rest ih =>
    intro ids
    unfold selectTransactionsGo
    split
    · exact (ih ids).cons t
    · exact (ih (ids ++ t.input_ids)).cons₂ t

/-- No transaction accepted by the greedy pass reuses a claimed input ID,
and no two accepted transactions conflict. -/
theorem selectTransactionsGo_noConflict : ∀ (pool : List Transaction) (ids : List Nat),
    (∀ t ∈ selectTransactionsGo ids pool, ∀ x ∈ t.input_ids, x ∉ ids) ∧
    List.Pairwise (fun a c => ∀ x ∈ c.input_ids, x ∉ a.input_ids)
      (selectTransactionsGo ids pool) := by
  intro pool
  induction pool with
  | nil =>
    intro ids
    constructor
    · intro t ht; simp [selectTransactionsGo] at ht
    · simp [selectTransactionsGo]
  | cons t rest ih =>
    intro ids
    unfold selectTransactionsGo
    split
    · exact ih ids
    · rename_i hna
      have hdis : ∀ x ∈ t.input_ids, x ∉ ids := by
        intro x hx hmem
        exact hna (List.any_eq_true.mpr ⟨x, hx, List.elem_iff.mpr hmem⟩)
      constructor
      · intro u hu x hx
        rcases List.mem_cons.mp hu with rfl | hu'
        · exact hdis x hx
        · intro hm
          exact (ih (ids ++ t.input_ids)).1 u hu' x hx (by simp [hm])
      · refine List.Pairwise.cons ?_ (ih (ids ++ t.input_ids)).2
        intro u hu x hx
        intro hm
        exact (ih (ids ++ t.input_ids)).1 u hu x hx (by simp [hm])

/-- The block built by Block.new carries exactly the given transactions. -/
theorem Block.new_transactions (env : Env) (pk prev : Nat) (header : Header)
    (txs : List Transaction) (proof : Option CoinbaseSolution) (b : Block)
    (h : Block.new env pk prev header txs proof = some b) : b.transactions = txs := by
  unfold Block.new at h
  cases h1 : env.header_to_root header with
  | none => simp only [h1] at h; exact absurd h (by simp)
  | some hr =>
    simp only [h1] at h
    cases h2 : env.hash_bhp1024 prev hr with
    | none => simp only [h2] at h; exact absurd h (by simp)
    | some hh =>
      simp only [h2] at h
      injection h with h'
      subst h'
      rfl

/-- A proposed block's transactions are exactly the greedy selection. -/
theorem propose_ok_transactions (env : Env) (L : Ledger) (pk : Nat) (now : Int) (b : Block)
    (h : propose_next_block env L pk now = .ok b) :
    b.transactions = selectTransactions (L.memory_pool.map (·.2)) := by
  simp only [propose_next_block] at h
  repeat' split at h
  all_goals cases h
  exact Block.new_transactions _ _ _ _ _ _ _ (by assumption)

/-- C6: a successfully proposed block carries exactly the transactions of
the greedy first-fit pass over the memory pool in insertion order; the
selection is a subsequence of the pool, and no selected transaction reuses
an input ID of a previously selected one. -/
theorem propose_next_block_transaction_selection (env : Env) (L : Ledger) (pk : Nat)
    (now : Int) (b : Block) :
    (propose_next_block env L pk now = .ok b →
      b.transactions = selectTransactions (L.memory_pool.map (·.2)))
    ∧ List.Sublist (selectTransactions (L.memory_pool.map (·.2))) (L.memory_pool.map (·.2))
    ∧ List.Pairwise (fun a c => ∀ x ∈ c.input_ids, x ∉ a.input_ids)
        (selectTransactions (L.memory_pool.map (·.2))) := by
  refine ⟨?_, ?_, ?_⟩
  · intro h
    exact propose_ok_transactions env L pk now b h
  · exact selectTransactionsGo_sublist (L.memory_pool.map (·.2)) []
  · exact (selectTransactionsGo_noConflict (L.memory_pool.map (·.2)) []).2

/-- The block proposed on LW7 under envW at wall-clock 5. -/
def proposedW : Block := (propose_next_block envW LW7 0 5).toOption.get (by rfl)

/-- C6 witness: the concrete proposed block carries exactly the greedy
selection over LW7's (empty) memory pool. -/
theorem propose_next_block_transaction_selection_witness :
    proposedW.transactions = selectTransactions (LW7.memory_pool.map (·.2)) :=
  (propose_next_block_transaction_selection envW LW7 0 5 proposedW).1 (by rfl)

/-- C7: with the latest epoch challenge and proof target available,
add_to_coinbase_memory_pool admits a prover solution exactly when the
latest height respects the year-10 anchor bound, the solution verifies
against the coinbase verifying key, latest epoch challenge and latest
proof target, and the solution is not already pooled; each violated
condition produces its own error, and success appends the solution. -/
theorem add_to_coinbase_memory_pool_spec (env : Env) (L : Ledger) (sol : ProverSolution)
    (ec : EpochChallenge) (pt : Nat)
    (hec : latestEpochChallenge env L = some ec)
    (hpt : latestProofTarget L = some pt) :
    (isErr (add_to_coinbase_memory_pool env L sol) = false ↔
      (L.current_height ≤ anchor_block_height ANCHOR_TIME 10 ∧
        env.prover_solution_verify env.coinbase_verifying_key ec pt sol = some true ∧
        L.coinbase_memory_pool.contains sol = false))
    ∧ (anchor_block_height ANCHOR_TIME 10 < L.current_height →
        add_to_coinbase_memory_pool env L sol = .error .coinbaseAfterYear10)
    ∧ (L.current_height ≤ anchor_block_height ANCHOR_TIME 10 →
        env.prover_solution_verify env.coinbase_verifying_key ec pt sol = some false →
        add_to_coinbase_memory_pool env L sol = .error .invalidProverSolution)
    ∧ (L.current_height ≤ anchor_block_height ANCHOR_TIME 10 →
        env.prover_solution_verify env.coinbase_verifying_key ec pt sol = some true →
        L.coinbase_memory_pool.contains sol = true →
        add_to_coinbase_memory_pool env L sol = .error .solutionInMemoryPool)
    ∧ (∀ L', add_to_coinbase_memory_pool env L sol = .ok L' →
        L' = { L with coinbase_memory_pool := L.coinbase_memory_pool ++ [sol] }) := by
  unfold add_to_coinbase_memory_pool
  by_cases h1 : anchor_block_height ANCHOR_TIME 10 < L.current_height
  · rw [if_pos h1]
    refine ⟨?_, ?_, ?_, ?_, ?_⟩
    · simp [isErr]; omega
    · intro _; rfl
    · intro h2 _; omega
    · intro h2 _ _; omega
    · intro L' hL'; exact absurd hL' (by simp)
  · rw [if_neg h1]
    simp only [hec, hpt]
    cases hv : env.prover_solution_verify env.coinbase_verifying_key ec pt sol with
    | none =>
      refine ⟨?_, ?_, ?_, ?_, ?_⟩
      · simp [isErr]
      · intro h2; omega
      · intro _ h3; simp at h3
      · intro _ h3 _; simp at h3
      · intro L' hL'; exact absurd hL' (by simp)
    | some bv =>
      cases bv with
      | false =>
        refine ⟨?_, ?_, ?_, ?_, ?_⟩
        · simp [isErr]
        · intro h2; omega
        · intro _ _; rfl
        · intro _ h3 _; simp at h3
        · intro L' hL'; exact absurd hL' (by simp)
      | true =>
        by_cases hdup : L.coinbase_memory_pool.contains sol = true
        · rw [if_pos hdup]
          refine ⟨?_, ?_, ?_, ?_, ?_⟩
          · constructor
            · intro hfalse; simp [isErr] at hfalse
            · rintro ⟨-, -, hcf⟩; rw [hcf] at hdup; exact absurd hdup (by simp)
          · intro h2; omega
          · intro _ h3; simp at h3
          · intro _ _ _; rfl
          · intro L' hL'; exact absurd hL' (by simp)
        · rw [if_neg hdup]
          refine ⟨?_, ?_, ?_, ?_, ?_⟩
          · constructor
            · intro _
              refine ⟨by omega, rfl, ?_⟩
              cases hc : L.coinbase_memory_pool.contains sol with
              | false => rfl
              | true => exact absurd hc hdup
            · intro _; rfl
          · intro h2; omega
          · intro _ h3; simp at h3
          · intro _ _ h4; exact absurd h4 hdup
          · intro L' hL'
            injection hL' with h'
            exact h'.symm

/-- C7 witness: on the post-genesis ledger LW7, the fresh solution solW is
admitted to the coinbase memory pool. -/
theorem add_to_coinbase_memory_pool_spec_witness :
    isErr (add_to_coinbase_memory_pool envW LW7 solW) = false :=
  ((add_to_coinbase_memory_pool_spec envW LW7 solW ecW 0 rfl rfl).1).mpr
    ⟨by decide, rfl, rfl⟩

/-- C8: a successful append whose block advances the epoch number empties
the coinbase memory pool; otherwise the pool is exactly the pre-append
pool. -/
theorem add_next_block_epoch_clears_solution_pool (env : Env) (L : Ledger) (b : Block)
    (L' : Ledger) (h : add_next_block env L b = .ok L') :
    (latest_epoch_number L < Block.epoch_number b → L'.coinbase_memory_pool = [])
    ∧ (¬ latest_epoch_number L < Block.epoch_number b →
        L'.coinbase_memory_pool = L.coinbase_memory_pool) := by
  simp only [add_next_block] at h
  repeat' split at h
  all_goals cases h
  · constructor
    · intro _; rfl
    · intro hn; exact absurd (by assumption) hn
  · constructor
    · intro hlt; exact absurd hlt (by assumption)
    · intro _; rfl

/-- The ledger after appending bW to LW with a finalizing VM. -/
def LWnext : Ledger := (add_next_block envW2 LW bW).toOption.get (by rfl)

/-- C8 witness: appending the genesis-epoch block bW leaves LW's coinbase
memory pool untouched. -/
theorem add_next_block_epoch_clears_solution_pool_witness :
    LWnext.coinbase_memory_pool = LW.coinbase_memory_pool :=
  (add_next_block_epoch_clears_solution_pool envW2 LW bW LWnext (by rfl)).2 (by decide)

/-- C9: check_next_block rejects a block whose signature address is not a
validator, and the membership test is its only use of the signature: two
blocks differing only in signatures with the same derived address check
identically — no cryptographic signature verification takes place. -/
theorem check_next_block_signature_presence_only (env : Env) (L : Ledger) (b : Block)
    (s' : Nat) :
    (L.validators.contains (env.sig_to_address b.signature) = false →
      isErr (check_next_block env L b) = true)
    ∧ (env.sig_to_address s' = env.sig_to_address b.signature →
      check_next_block env L { b with signature := s' } = check_next_block env L b) := by
  constructor
  · intro hnc
    cases hc : check_next_block env L b with
    | error e => rfl
    | ok u =>
      cases u
      have hs := (check_next_block_eq_ok_iff env L b).mp hc
      have hsig := (checkSigner_eq_ok_iff env L b).mp hs.2.2.2.2.1
      rw [hsig] at hnc
      exact absurd hnc (by simp)
  · intro h
    have hsig : checkSigner env L { b with signature := s' } = checkSigner env L b := by
      unfold checkSigner
      rw [show env.sig_to_address ({ b with signature := s' } : Block).signature
            = env.sig_to_address b.signature from h]
    unfold check_next_block
    rw [hsig]
    rfl

/-- A variant of bW signed with a different signature that derives the
same validator address. -/
def bW8 : Block := { bW with signature := 8 }

/-- C9 witness: the block signed by an address outside LW's validator set
is rejected. -/
theorem check_next_block_signature_presence_only_witness :
    isErr (check_next_block envW LW bW8) = true :=
  (check_next_block_signature_presence_only envW LW bW8 0).1 (by rfl)

/-- A successful transaction admission only appends the transaction to the
memory pool. -/
theorem add_to_memory_pool_ok_shape (env : Env) (L : Ledger) (t : Transaction) (L' : Ledger)
    (h : add_to_memory_pool env L t = .ok L') :
    L' = { L with memory_pool := L.memory_pool ++ [(t.id, t)] } := by
  unfold add_to_memory_pool at h
  repeat' split at h
  all_goals cases h
  rfl

/-- A successful solution admission only appends the solution to the
coinbase memory pool. -/
theorem add_to_coinbase_memory_pool_ok_shape (env : Env) (L : Ledger) (sol : ProverSolution)
    (L' : Ledger) (h : add_to_coinbase_memory_pool env L sol = .ok L') :
    L' = { L with coinbase_memory_pool := L.coinbase_memory_pool ++ [sol] } := by
  unfold add_to_coinbase_memory_pool at h
  repeat' split at h
  all_goals cases h
  rfl

/-- C10: mempool admission is atomic on error and frame-preserving: a
failed add_to_memory_pool or add_to_coinbase_memory_pool leaves the whole
ledger as it was, and in every case each operation changes nothing outside
its own pool. -/
theorem memory_pool_admission_frame (env : Env) (L : Ledger) (t : Transaction)
    (sol : ProverSolution) :
    (∀ e, (addToMemoryPoolMut env L t).2 = some e → (addToMemoryPoolMut env L t).1 = L)
    ∧ (∀ e, (addToCoinbaseMemoryPoolMut env L sol).2 = some e →
        (addToCoinbaseMemoryPoolMut env L sol).1 = L)
    ∧ (addToMemoryPoolMut env L t).1 =
        { L with memory_pool := (addToMemoryPoolMut env L t).1.memory_pool }
    ∧ (addToCoinbaseMemoryPoolMut env L sol).1 =
        { L with coinbase_memory_pool :=
            (addToCoinbaseMemoryPoolMut env L sol).1.coinbase_memory_pool } := by
  refine ⟨?_, ?_, ?_, ?_⟩
  · intro e he
    unfold addToMemoryPoolMut at he ⊢
    cases hr : add_to_memory_pool env L t with
    | ok L1 => rw [hr] at he; simp at he
    | error e1 => rfl
  · intro e he
    unfold addToCoinbaseMemoryPoolMut at he ⊢
    cases hr : add_to_coinbase_memory_pool env L sol with
    | ok L1 => rw [hr] at he; simp at he
    | error e1 => rfl
  · unfold addToMemoryPoolMut
    cases hr : add_to_memory_pool env L t with
    | ok L1 => rw [add_to_memory_pool_ok_shape env L t L1 hr]
    | error e1 => rfl
  · unfold addToCoinbaseMemoryPoolMut
    cases hr : add_to_coinbase_memory_pool env L sol with
    | ok L1 => rw [add_to_coinbase_memory_pool_ok_shape env L sol L1 hr]
    | error e1 => rfl

/-- C10 witness: admitting txW into LW's memory pool changes no field but
the memory pool. -/
theorem memory_pool_admission_frame_witness :
    (addToMemoryPoolMut envW LW txW).1 =
      { LW with memory_pool := (addToMemoryPoolMut envW LW txW).1.memory_pool } :=
  (memory_pool_admission_frame envW LW txW solW).2.2.1
